import Mathlib

/-!
Verification of `alchemy` (risk/return analytics over price tables).

The embedding models the pandas/numpy fragment that `src/alchemy/portfolio.py`
uses. A DataFrame is a date index (`List Nat`), column names, and one list of
`Option K` values per column (`none` models a missing value / NaN). Numbers
live in an arbitrary field `K`; the elementwise natural logarithm (`np.log`)
and the square root (`np.sqrt`, and the one inside `pandas.std`) are passed in
as symbolic functions `lg sq : K → K`, since every claim is about the
structure of the computation rather than properties of the transcendental
functions themselves. Per-table date indices are assumed unique, as pandas
`reindex` requires.
-/

namespace Alchemy

/-- Errors surfaced by the Python source: the two explicit `ValueError`s that
name the mismatching counts, the `KeyError` from `df[price_field_name]` (which
carries only the field name), the `ValueError` that `pd.concat` raises on an
empty list, the shape `ValueError` from a numpy/pandas dot product, and the
`NameError` for an unbound identifier. -/
inductive Err where
  | lenMismatch (left right : Nat)
  | keyError (field : String)
  | noObjectsToConcatenate
  | dotShapeMismatch (left right : Nat)
  | nameError (ident : String)
deriving DecidableEq

/-- A pandas Series: a date index and one optional value per date. -/
structure PSeries (K : Type) where
  idx : List Nat
  vals : List (Option K)
deriving DecidableEq

/-- A pandas DataFrame: a date index, column names, and per-column values. -/
structure DF (K : Type) where
  idx : List Nat
  names : List String
  cols : List (List (Option K))
deriving DecidableEq

/-- A pandas Series keyed by column names (result of `df.mean()` etc.). -/
structure KSeries (K : Type) where
  keys : List String
  vals : List (Option K)
deriving DecidableEq

/-- `AssetTimeSeries` NamedTuple of the source. -/
structure AssetTimeSeries (K : Type) where
  prices : DF K
  log_returns : DF K
deriving DecidableEq

/-- `AssetMetrics` NamedTuple of the source. -/
structure AssetMetrics (K : Type) where
  daily_return : KSeries K
  daily_vol : KSeries K
  annual_return : KSeries K
  annual_vol : KSeries K
deriving DecidableEq

/-- `AssetRiskProfile` NamedTuple of the source. -/
structure AssetRiskProfile (K : Type) where
  time_series : AssetTimeSeries K
  metrics : AssetMetrics K
deriving DecidableEq

/-- Missing values absorb a unary elementwise operation (NaN propagation). -/
def omap {K : Type} (f : K → K) : Option K → Option K
  | some a => some (f a)
  | none => none

/-- Missing values absorb a binary elementwise operation (NaN propagation). -/
def omap2 {K : Type} (f : K → K → K) : Option K → Option K → Option K
  | some a, some b => some (f a b)
  | _, _ => none

/-- Position of the first occurrence of a date in an index. -/
def lookupIdx (d : Nat) : List Nat → Option Nat
  | [] => none
  | e :: rest => if e = d then some 0 else (lookupIdx d rest).map (fun p => p + 1)

/-- Value of a series at a date: the entry at the first position carrying that
date, `none` when the date is absent. -/
def seriesAt {K : Type} (s : PSeries K) (d : Nat) : Option K :=
  match lookupIdx d s.idx with
  | some p => s.vals.getD p none
  | none => none

/-- `Series.reindex`: align a series onto a new date index; dates the series
does not carry become missing values. -/
def reindexVals {K : Type} (newIdx : List Nat) (s : PSeries K) : List (Option K) :=
  newIdx.map (seriesAt s)

/-- Insert into a strictly increasing list, dropping duplicates. -/
def insertSorted (x : Nat) : List Nat → List Nat
  | [] => [x]
  | y :: ys => if x < y then x :: y :: ys else if x = y then y :: ys else y :: insertSorted x ys

/-- Sorted duplicate-free ordering of a list, used for the union index. -/
def sortDedup (l : List Nat) : List Nat := l.foldr insertSorted []

/-- Joined index of `pd.concat(..., axis=1)` with the default outer join: the
common index when all indices coincide, otherwise the sorted union of the
date indices. -/
def unionIdx {K : Type} (s0 : PSeries K) (rest : List (PSeries K)) : List Nat :=
  if (s0 :: rest).all (fun s => s.idx = s0.idx) then s0.idx
  else sortDedup (((s0 :: rest).map (fun s => s.idx)).flatten)

/-- `pd.concat(..., axis=1)` with the default outer join: fails on an empty
list, otherwise aligns every series on the joined date index (so dates a
series does not carry become missing values for it). Column names are
placeholders, as the source overwrites them right away. -/
def concatCols {K : Type} (ss : List (PSeries K)) : Except Err (DF K) :=
  match ss with
  | [] => .error .noObjectsToConcatenate
  | s0 :: rest =>
    .ok { idx := unionIdx s0 rest, names := (s0 :: rest).map (fun _ => ""),
          cols := (s0 :: rest).map (reindexVals (unionIdx s0 rest)) }

/-- `prices.columns = asset_names`. -/
def setNames {K : Type} (df : DF K) (names : List String) : DF K :=
  { df with names := names }

/-- One column of `df.shift(1)`: a leading missing value, last entry dropped. -/
def shiftCol {K : Type} (c : List (Option K)) : List (Option K) :=
  (none :: c).take c.length

/-- `df.shift(1)`. -/
def shift1 {K : Type} (df : DF K) : DF K :=
  { df with cols := df.cols.map shiftCol }

/-- Elementwise binary operation between two frames of identical shape. -/
def zipDF {K : Type} (f : K → K → K) (a b : DF K) : DF K :=
  { a with cols := List.zipWith (List.zipWith (omap2 f)) a.cols b.cols }

/-- Elementwise unary operation on a frame (`np.log` applied to a frame). -/
def applyDF {K : Type} (f : K → K) (df : DF K) : DF K :=
  { df with cols := df.cols.map (List.map (omap f)) }

/-- `df.iloc[1:]`: drop the first row. -/
def iloc1 {K : Type} (df : DF K) : DF K :=
  { idx := df.idx.tail, names := df.names, cols := df.cols.map List.tail }

/-- `Series.mean()` for one column: pandas skips missing values and yields
NaN when no observation remains. -/
def colMean {K : Type} [Field K] (c : List (Option K)) : Option K :=
  let xs := c.filterMap id
  if xs.length = 0 then none else some (xs.sum / (xs.length : K))

/-- `Series.std()` for one column: pandas skips missing values, uses the
unbiased (`ddof=1`) denominator and yields NaN for fewer than two
observations. -/
def colStd {K : Type} [Field K] (sq : K → K) (c : List (Option K)) : Option K :=
  let xs := c.filterMap id
  if xs.length ≤ 1 then none
  else some (sq ((xs.map (fun x => (x - xs.sum / (xs.length : K)) ^ 2)).sum / ((xs.length : K) - 1)))

/-- `df.mean()`: per-column mean, keyed by column name. -/
def dfMean {K : Type} [Field K] (df : DF K) : KSeries K :=
  ⟨df.names, df.cols.map colMean⟩

/-- `df.std()`: per-column unbiased standard deviation, keyed by column name. -/
def dfStd {K : Type} [Field K] (sq : K → K) (df : DF K) : KSeries K :=
  ⟨df.names, df.cols.map (colStd sq)⟩

/-- `series * a` for a scalar `a` (missing values propagate). -/
def smulKS {K : Type} [Field K] (a : K) (s : KSeries K) : KSeries K :=
  { s with vals := s.vals.map (omap (fun x => x * a)) }

/-- Lines 53-57 and 97-101 of the source: mean, unbiased standard deviation,
and the two annualizations `* 252` and `* np.sqrt(252)`. -/
def mkMetrics {K : Type} [Field K] (sq : K → K) (log_returns : DF K) : AssetMetrics K :=
  let daily_return := dfMean log_returns
  let daily_vol := dfStd sq log_returns
  { daily_return := daily_return, daily_vol := daily_vol,
    annual_return := smulKS 252 daily_return,
    annual_vol := smulKS (sq 252) daily_vol }

/-- Position of the first column carrying a given name. -/
def colPos (field : String) : List String → Option Nat
  | [] => none
  | n :: rest => if n = field then some 0 else (colPos field rest).map (fun p => p + 1)

/-- `df[field]`: the series of the first column named `field`, `none`
(a `KeyError` at the call site) when no column carries the name. -/
def getCol {K : Type} (df : DF K) (field : String) : Option (PSeries K) :=
  (colPos field df.names).map (fun j => ⟨df.idx, df.cols.getD j []⟩)

/-- The series a table contributes for a field it does carry: date index of
the table, values of its first column named `field`. -/
def seriesOf {K : Type} (df : DF K) (field : String) : PSeries K :=
  ⟨df.idx, df.cols.getD ((colPos field df.names).getD 0) []⟩

/-- The comprehension `[df[price_field_name] for df in dfs]`: extracts the
field from every table left to right, raising `KeyError` at the first table
missing it. -/
def extractAll {K : Type} (dfs : List (DF K)) (field : String) : Except Err (List (PSeries K)) :=
  match dfs with
  | [] => .ok []
  | d :: rest =>
    match getCol d field with
    | none => .error (.keyError field)
    | some s => Except.map (fun ss => s :: ss) (extractAll rest field)

/-- Lines 51-70 of the source, starting from the combined price table:
`np.log(prices / prices.shift(1)).iloc[1:]`, the metrics block, and the
final `AssetRiskProfile` value. -/
def assetProfileFrom {K : Type} [Field K] (lg sq : K → K) (prices : DF K) : AssetRiskProfile K :=
  let log_returns := iloc1 (applyDF lg (zipDF (fun a b => a / b) prices (shift1 prices)))
  { time_series := { prices := prices, log_returns := log_returns },
    metrics := mkMetrics sq log_returns }

/-- `get_asset_risk_profile` (lines 27-70 of the source): count check, field
extraction, outer-join concatenation, column renaming, then the log-return
and metrics block of `assetProfileFrom`. -/
def get_asset_risk_profile {K : Type} [Field K] (lg sq : K → K)
    (dfs : List (DF K)) (asset_names : List String) (price_field_name : String) :
    Except Err (AssetRiskProfile K) :=
  if dfs.length ≠ asset_names.length then
    .error (.lenMismatch dfs.length asset_names.length)
  else
    match extractAll dfs price_field_name with
    | .error e => .error e
    | .ok ss =>
      match concatCols ss with
      | .error e => .error e
      | .ok prices0 => .ok (assetProfileFrom lg sq (setNames prices0 asset_names))

/-- One row of a frame, as the list of per-column entries at position `p`. -/
def rowAt {K : Type} (cols : List (List (Option K))) (p : Nat) : List (Option K) :=
  cols.map (fun c => c.getD p none)

/-- One entry of `prices @ asset_shares`: the dot product of a row with the
share vector; any missing value in the row makes the result missing, exactly
as NaN propagates through a numpy dot product. -/
def rowDot {K : Type} [Field K] (xs : List (Option K)) (shares : List K) : Option K :=
  if xs.all Option.isSome then
    some (List.sum (List.zipWith (fun x w => x * w) (xs.filterMap id) shares))
  else none

/-- `prices @ asset_shares`: a series over the date index whose entry at each
date is the row dot product with the shares. -/
def dotDfVec {K : Type} [Field K] (df : DF K) (shares : List K) : PSeries K :=
  ⟨df.idx, (List.range df.idx.length).map (fun p => rowDot (rowAt df.cols p) shares)⟩

/-- `series.to_frame(name)`. -/
def toFrame {K : Type} (name : String) (s : PSeries K) : DF K :=
  ⟨s.idx, [name], [s.vals]⟩

/-- `df.dropna()`: keep exactly the rows without missing values. -/
def dropna {K : Type} (df : DF K) : DF K :=
  let keep := (List.range df.idx.length).filter (fun p => (rowAt df.cols p).all Option.isSome)
  ⟨keep.map (fun p => df.idx.getD p 0), df.names, df.cols.map (fun c => keep.map (fun p => c.getD p none))⟩

/-- Lines 95-114 of the source, starting from the one-column portfolio price
frame: `(portfolio_prices / portfolio_prices.shift(1)).dropna()` — with no
logarithm applied — followed by the metrics block and the final value. -/
def v1ProfileFrom {K : Type} [Field K] (sq : K → K) (portfolio_prices : DF K) :
    AssetRiskProfile K :=
  let portfolio_log_returns :=
    dropna (zipDF (fun a b => a / b) portfolio_prices (shift1 portfolio_prices))
  { time_series := { prices := portfolio_prices, log_returns := portfolio_log_returns },
    metrics := mkMetrics sq portfolio_log_returns }

/-- The first `get_portfolio_risk_profile` of the source (lines 73-114), the
definition later shadowed by the second one: count check, linear combination
of the price columns, then the ratio-return and metrics block of
`v1ProfileFrom`. -/
def get_portfolio_risk_profile_v1 {K : Type} [Field K] (sq : K → K)
    (prices : DF K) (asset_shares : List K) : Except Err (AssetRiskProfile K) :=
  if prices.names.length ≠ asset_shares.length then
    .error (.lenMismatch prices.names.length asset_shares.length)
  else
    .ok (v1ProfileFrom sq (toFrame ("portfolio") (dotDfVec prices asset_shares)))

/-- One output entry of `w @ df`: the dot product of a whole column with the
vector, missing whenever the column has a missing value. -/
def colDotW {K : Type} [Field K] (w : List K) (c : List (Option K)) : Option K :=
  if c.all Option.isSome then
    some (List.sum (List.zipWith (fun a x => a * x) w (c.filterMap id)))
  else none

/-- `w @ df` for a one-dimensional `w`: pandas contracts the vector against
the rows, so the vector length must equal the number of rows; the result is
keyed by the column names. -/
def vecDotDf {K : Type} [Field K] (w : List K) (df : DF K) : Except Err (KSeries K) :=
  if w.length ≠ df.idx.length then .error (.dotShapeMismatch w.length df.idx.length)
  else .ok ⟨df.names, df.cols.map (colDotW w)⟩

/-- `w @ series`: dot product with a name-keyed series of matching length. -/
def vecDotSeries {K : Type} [Field K] (w : List K) (s : KSeries K) : Except Err (Option K) :=
  if w.length ≠ s.vals.length then .error (.dotShapeMismatch w.length s.vals.length)
  else .ok (colDotW w s.vals)

/-- The second `get_portfolio_risk_profile` of the source (lines 134-169) —
the definition that shadows the first at module level. It evaluates
`weights @ asset_prices`, `weights @ asset_log_returns` and
`weights @ asset_metrics.daily_return` in order (each can fail with a dot
shape error), then hits the unbound identifier `asset_time_series` on line
168 and raises `NameError`; the function body has no return statement. -/
def get_portfolio_risk_profile {K : Type} [Field K]
    (asset_risk_profile : AssetRiskProfile K) (weights : List K) :
    Except Err (AssetRiskProfile K) :=
  match vecDotDf weights asset_risk_profile.time_series.prices with
  | .error e => .error e
  | .ok _portfolio_prices =>
    match vecDotDf weights asset_risk_profile.time_series.log_returns with
    | .error e => .error e
    | .ok _portfolio_log_returns =>
      match vecDotSeries weights asset_risk_profile.metrics.daily_return with
      | .error e => .error e
      | .ok _portfolio_daily_returns => .error (.nameError ("asset_time_series"))

/-- Sample mean, following the spec wording: sum of the observations over
their count. -/
def specSampleMean (xs : List ℚ) : ℚ := xs.sum / (xs.length : ℚ)

/-- Unbiased sample variance, following the spec wording: sum of squared
deviations from the sample mean over the count minus one. -/
def specSampleVar (xs : List ℚ) : ℚ :=
  (xs.map (fun x => (x - specSampleMean xs) ^ 2)).sum / ((xs.length : ℚ) - 1)

/-- Combined price table the asset builder produces when every precondition
holds: each table's `price_field` series aligned on the joined index, with
the asset names as column names. -/
def pricesTableOf {K : Type} (dfs : List (DF K)) (asset_names : List String)
    (field : String) : DF K :=
  match dfs.map (fun df => seriesOf df field) with
  | [] => ⟨[], asset_names, []⟩
  | s0 :: rest =>
    setNames ⟨unionIdx s0 rest, (s0 :: rest).map (fun _ => ""),
      (s0 :: rest).map (reindexVals (unionIdx s0 rest))⟩ asset_names

/-- Whether a fallible computation succeeded. -/
def isOkE {ε α : Type} : Except ε α → Bool
  | .ok _ => true
  | .error _ => false

/-- Rescale only the price table of a profile, leaving the return table and
every metric untouched. -/
def scalePrices {K : Type} (f : K → K) (r : AssetRiskProfile K) : AssetRiskProfile K :=
  { r with time_series := { r.time_series with prices := applyDF f r.time_series.prices } }

/-- Degenerate stand-in for the natural logarithm, used to instantiate the
symbolic elementwise function at concrete inputs. -/
def lg0 : ℚ → ℚ := fun _ => 0

/-- Degenerate stand-in for the square root, used to instantiate the symbolic
elementwise function at concrete inputs. -/
def sq0 : ℚ → ℚ := fun _ => 0

/-- Concrete risk profile over two assets and three dates, with the price
data of the spec's end-to-end scenario. -/
def profC : AssetRiskProfile ℚ :=
  { time_series :=
      { prices := ⟨[0, 1, 2], ["A", "B"],
          [[some 100, some 110, some 121], [some 50, some 50, some 55]]⟩,
        log_returns := ⟨[1, 2], ["A", "B"], [[some 0, some 0], [some 0, some 0]]⟩ },
    metrics :=
      { daily_return := ⟨["A", "B"], [some 0, some 0]⟩,
        daily_vol := ⟨["A", "B"], [none, none]⟩,
        annual_return := ⟨["A", "B"], [some 0, some 0]⟩,
        annual_vol := ⟨["A", "B"], [none, none]⟩ } }

/-- One-asset table with constant price one over two dates. -/
def dfONE : DF ℚ := ⟨[0, 1], ["px"], [[some 1, some 1]]⟩

/-- Two-asset table with constant price one over two dates. -/
def dfP2 : DF ℚ := ⟨[0, 1], ["A", "B"], [[some 1, some 1], [some 1, some 1]]⟩

/-- One-asset table whose price doubles from one date to the next. -/
def dfRat : DF ℚ := ⟨[0, 1], ["A"], [[some 1, some 2]]⟩

/-- Table with a price column but not a single row. -/
def dfEmpty : DF ℚ := ⟨[], ["px"], [[]]⟩

/-- Table that does not carry the price field named px. -/
def dfNoPx : DF ℚ := ⟨[0], ["open"], [[some 1]]⟩

/-- Relation between the metrics block of a profile and its stored return
table: the daily figures are the per-column mean and unbiased standard
deviation of the stored return series, and each annual figure is the matching
daily figure scaled by 252, respectively by the square root of 252. -/
def metricProps (sq : ℚ → ℚ) (r : AssetRiskProfile ℚ) : Prop :=
  r.metrics.daily_return.vals = r.time_series.log_returns.cols.map colMean ∧
  r.metrics.daily_vol.vals = r.time_series.log_returns.cols.map (colStd sq) ∧
  r.metrics.annual_return.vals =
    r.metrics.daily_return.vals.map (omap (fun x => x * 252)) ∧
  r.metrics.annual_vol.vals =
    r.metrics.daily_vol.vals.map (omap (fun x => x * sq 252))

/-! Helper lemmas about column lookup and field extraction. -/

theorem colPos_eq_none (field : String) (names : List String) (h : field ∉ names) :
    colPos field names = none := by
  induction names with
  | nil => rfl
  | cons n rest ih =>
    simp only [List.mem_cons, not_or] at h
    have hne : ¬ n = field := fun he => h.1 he.symm
    simp only [colPos, if_neg hne, ih h.2, Option.map_none']

theorem colPos_of_mem (field : String) (names : List String) (h : field ∈ names) :
    ∃ j, colPos field names = some j := by
  induction names with
  | nil => cases h
  | cons n rest ih =>
    by_cases he : n = field
    · exact ⟨0, by simp [colPos, he]⟩
    · have hrest : field ∈ rest := by
        rcases List.mem_cons.mp h with h1 | h2
        · exact absurd h1.symm he
        · exact h2
      rcases ih hrest with ⟨j, hj⟩
      exact ⟨j + 1, by simp [colPos, he, hj]⟩

theorem getCol_of_mem {K : Type} (df : DF K) (field : String) (h : field ∈ df.names) :
    getCol df field = some (seriesOf df field) := by
  rcases colPos_of_mem field df.names h with ⟨j, hj⟩
  simp [getCol, seriesOf, hj]

theorem getCol_eq_none {K : Type} (df : DF K) (field : String) (h : field ∉ df.names) :
    getCol df field = none := by
  simp [getCol, colPos_eq_none field df.names h]

theorem extractAll_ok {K : Type} (dfs : List (DF K)) (field : String)
    (h : ∀ df ∈ dfs, field ∈ df.names) :
    extractAll dfs field = .ok (dfs.map (fun df => seriesOf df field)) := by
  induction dfs with
  | nil => rfl
  | cons d rest ih =>
    simp only [extractAll, getCol_of_mem d field (h d (by simp)), List.map_cons]
    rw [ih (fun df hdf => h df (by simp [hdf]))]
    rfl

theorem extractAll_error_shape {K : Type} {dfs : List (DF K)} {field : String} {e : Err}
    (h : extractAll dfs field = .error e) : e = .keyError field := by
  induction dfs with
  | nil => cases h
  | cons d rest ih =>
    unfold extractAll at h
    cases hg : getCol d field with
    | none => rw [hg] at h; cases h; rfl
    | some s =>
      rw [hg] at h
      cases hr : extractAll rest field with
      | error e2 =>
        rw [hr] at h
        simp only [Except.map] at h
        cases h
        exact ih hr
      | ok ss =>
        rw [hr] at h
        simp only [Except.map] at h
        cases h

theorem extractAll_error_of_missing {K : Type} (dfs : List (DF K)) (field : String)
    (h : ∃ df ∈ dfs, field ∉ df.names) :
    extractAll dfs field = .error (.keyError field) := by
  induction dfs with
  | nil => rcases h with ⟨df, hd, _⟩; cases hd
  | cons d rest ih =>
    by_cases hd : field ∈ d.names
    · rcases h with ⟨df, hdf, hnot⟩
      rcases List.mem_cons.mp hdf with rfl | hrest
      · exact absurd hd hnot
      · have hr := ih ⟨df, hrest, hnot⟩
        simp [extractAll, getCol_of_mem d field hd, hr, Except.map]
    · simp [extractAll, getCol_eq_none d field hd]

/-- Successful run of the asset builder, in closed form. -/
theorem builder_ok {K : Type} [Field K] (lg sq : K → K) (dfs : List (DF K))
    (names : List String) (field : String) (hne : dfs ≠ [])
    (hlen : dfs.length = names.length) (hf : ∀ df ∈ dfs, field ∈ df.names) :
    get_asset_risk_profile lg sq dfs names field =
      .ok (assetProfileFrom lg sq (pricesTableOf dfs names field)) := by
  cases dfs with
  | nil => exact absurd rfl hne
  | cons d rest =>
    unfold get_asset_risk_profile
    rw [if_neg (by simp [hlen]), extractAll_ok _ _ hf]
    rfl

/-- Successful run of the shadowed portfolio builder, in closed form. -/
theorem v1_ok {K : Type} [Field K] (sq : K → K) (prices : DF K) (shares : List K)
    (hlen : prices.names.length = shares.length) :
    get_portfolio_risk_profile_v1 sq prices shares =
      .ok (v1ProfileFrom sq (toFrame ("portfolio") (dotDfVec prices shares))) := by
  unfold get_portfolio_risk_profile_v1
  rw [if_neg (by simp [hlen])]

/-! Helper lemmas about the joined date index. -/

theorem mem_insertSorted (x y : Nat) (l : List Nat) :
    y ∈ insertSorted x l ↔ y = x ∨ y ∈ l := by
  induction l with
  | nil => simp [insertSorted]
  | cons a as ih =>
    unfold insertSorted
    by_cases h1 : x < a
    · rw [if_pos h1]
      simp only [List.mem_cons]
    · rw [if_neg h1]
      by_cases h2 : x = a
      · rw [if_pos h2]
        subst h2
        simp only [List.mem_cons]
        tauto
      · rw [if_neg h2]
        simp only [List.mem_cons, ih]
        tauto

theorem mem_sortDedup (y : Nat) (l : List Nat) : y ∈ sortDedup l ↔ y ∈ l := by
  induction l with
  | nil => simp [sortDedup]
  | cons a as ih =>
    have : sortDedup (a :: as) = insertSorted a (sortDedup as) := rfl
    rw [this, mem_insertSorted, ih, List.mem_cons]

theorem sorted_insertSorted (x : Nat) (l : List Nat)
    (h : List.Pairwise (fun a b => a < b) l) :
    List.Pairwise (fun a b => a < b) (insertSorted x l) := by
  induction l with
  | nil => simp [insertSorted]
  | cons a as ih =>
    rcases List.pairwise_cons.mp h with ⟨ha, has⟩
    unfold insertSorted
    by_cases h1 : x < a
    · rw [if_pos h1]
      refine List.pairwise_cons.mpr ⟨?_, h⟩
      intro y hy
      rcases List.mem_cons.mp hy with rfl | hy2
      · exact h1
      · exact h1.trans (ha y hy2)
    · by_cases h2 : x = a
      · rw [if_neg h1, if_pos h2]; exact h
      · rw [if_neg h1, if_neg h2]
        have hax : a < x := lt_of_le_of_ne (Nat.le_of_not_lt h1) (fun he => h2 he.symm)
        refine List.pairwise_cons.mpr ⟨?_, ih has⟩
        intro y hy
        rcases (mem_insertSorted x y as).mp hy with rfl | hy2
        · exact hax
        · exact ha y hy2

theorem sorted_sortDedup (l : List Nat) :
    List.Pairwise (fun a b => a < b) (sortDedup l) := by
  induction l with
  | nil => simp [sortDedup]
  | cons a as ih => exact sorted_insertSorted a (sortDedup as) ih

theorem mem_unionIdx {K : Type} (s0 : PSeries K) (rest : List (PSeries K)) (d : Nat) :
    d ∈ unionIdx s0 rest ↔ ∃ s ∈ s0 :: rest, d ∈ s.idx := by
  unfold unionIdx
  split
  case isTrue hall =>
    constructor
    · intro hd
      exact ⟨s0, by simp, hd⟩
    · rintro ⟨s, hs, hd⟩
      have heq : s.idx = s0.idx := by
        have := List.all_eq_true.mp hall s hs
        exact of_decide_eq_true this
      rw [heq] at hd
      exact hd
  case isFalse hall =>
    rw [mem_sortDedup, List.mem_flatten]
    constructor
    · rintro ⟨l, hl, hd⟩
      rcases List.mem_map.mp hl with ⟨s, hs, rfl⟩
      exact ⟨s, hs, hd⟩
    · rintro ⟨s, hs, hd⟩
      exact ⟨s.idx, List.mem_map.mpr ⟨s, hs, rfl⟩, hd⟩

theorem lookupIdx_eq_none (d : Nat) (l : List Nat) (h : d ∉ l) : lookupIdx d l = none := by
  induction l with
  | nil => rfl
  | cons e rest ih =>
    simp only [List.mem_cons, not_or] at h
    have hne : ¬ e = d := fun he => h.1 he.symm
    simp [lookupIdx, hne, ih h.2]

theorem seriesAt_not_mem {K : Type} (s : PSeries K) (d : Nat) (h : d ∉ s.idx) :
    seriesAt s d = none := by
  simp [seriesAt, lookupIdx_eq_none d s.idx h]

/-! Helper lemmas about indexing into the shifted, divided, mapped columns. -/

theorem getD_tail {K : Type} (l : List (Option K)) (p : Nat) :
    l.tail.getD p none = l.getD (p + 1) none := by
  cases l with
  | nil => simp
  | cons a t => simp [List.getD_cons_succ]

theorem getD_map_omap {K : Type} (f : K → K) (l : List (Option K)) (p : Nat) :
    (l.map (omap f)).getD p none = omap f (l.getD p none) := by
  have h := @List.getD_map (Option K) (Option K) l none p (omap f)
  have h0 : omap f (none : Option K) = none := rfl
  rw [h0] at h
  exact h

theorem zipWith_take_right {A B C : Type} (f : A → B → C) (l : List A) (l2 : List B) :
    List.zipWith f l (l2.take l.length) = List.zipWith f l l2 := by
  induction l generalizing l2 with
  | nil => simp
  | cons a as ih =>
    cases l2 with
    | nil => simp
    | cons b bs => simp [ih]

theorem zip_cons_getD {K : Type} (g : Option K → Option K → Option K)
    (hg : ∀ y, g none y = none) :
    ∀ (c : List (Option K)) (prev : Option K) (p : Nat),
      (List.zipWith g c (prev :: c)).getD p none = g (c.getD p none) ((prev :: c).getD p none)
  | [], prev, 0 => by simp [hg]
  | [], prev, p + 1 => by simp [hg]
  | a :: c', prev, 0 => by simp [List.zipWith]
  | a :: c', prev, p + 1 => by
    simp only [List.zipWith, List.getD_cons_succ]
    exact zip_cons_getD g hg c' a p

theorem zip_shiftCol_getD {K : Type} (g : Option K → Option K → Option K)
    (hg : ∀ y, g none y = none) (c : List (Option K)) (p : Nat) :
    (List.zipWith g c (shiftCol c)).getD (p + 1) none =
      g (c.getD (p + 1) none) (c.getD p none) := by
  have h1 : List.zipWith g c (shiftCol c) = List.zipWith g c (none :: c) := by
    unfold shiftCol
    exact zipWith_take_right g c (none :: c)
  rw [h1, zip_cons_getD g hg c none (p + 1), List.getD_cons_succ]

theorem getD_map_empF {A B : Type} (F : List A → List B) (hF : F [] = [])
    (l : List (List A)) (j : Nat) :
    (l.map F).getD j [] = F (l.getD j []) := by
  induction l generalizing j with
  | nil => simp [hF]
  | cons a t ih =>
    cases j with
    | zero => simp
    | succ n => simp only [List.map_cons, List.getD_cons_succ, ih]

/-- The log-return table of `assetProfileFrom`, column by column. -/
theorem assetLogRet_cols {K : Type} [Field K] (lg sq : K → K) (P : DF K) :
    (assetProfileFrom lg sq P).time_series.log_returns.cols =
      P.cols.map (fun c =>
        (List.map (omap lg) (List.zipWith (omap2 (fun a b => a / b)) c (shiftCol c))).tail) := by
  show ((List.zipWith (List.zipWith (omap2 (fun a b => a / b))) P.cols
      (P.cols.map shiftCol)).map (List.map (omap lg))).map List.tail = _
  rw [List.zipWith_map_right, List.zipWith_same, List.map_map, List.map_map]
  rfl

/-- One entry of a log-return column, in terms of the price column. -/
theorem assetLogRet_entry {K : Type} [Field K] (lg : K → K) (c : List (Option K)) (p : Nat) :
    ((List.map (omap lg) (List.zipWith (omap2 (fun a b => a / b)) c (shiftCol c))).tail).getD p none
      = omap lg (omap2 (fun a b => a / b) (c.getD (p + 1) none) (c.getD p none)) := by
  rw [getD_tail, getD_map_omap, zip_shiftCol_getD]
  intro y
  rfl

/-! Helper lemmas for the homogeneity of the shadowed portfolio builder. -/

theorem rowDot_scale {K : Type} [Field K] (k : K) (xs : List (Option K)) (shares : List K) :
    rowDot xs (shares.map (fun w => k * w)) = omap (fun v => k * v) (rowDot xs shares) := by
  unfold rowDot
  by_cases h : xs.all Option.isSome
  · rw [if_pos h, if_pos h]
    simp only [omap]
    congr 1
    rw [List.zipWith_map_right]
    have hfun : (fun (x w : K) => x * (k * w)) = fun x w => k * (x * w) := by
      funext x w
      ring
    rw [hfun]
    have hmap : List.zipWith (fun (x w : K) => k * (x * w)) (xs.filterMap id) shares
        = List.map (fun v => k * v) (List.zipWith (fun x w => x * w) (xs.filterMap id) shares) := by
      rw [List.map_zipWith]
    rw [hmap]
    have hs := List.sum_map_mul_left
      (List.zipWith (fun (x w : K) => x * w) (xs.filterMap id) shares) id k
    simpa using hs
  · rw [if_neg h, if_neg h]
    rfl

theorem dotDfVec_scale {K : Type} [Field K] (k : K) (df : DF K) (shares : List K) :
    dotDfVec df (shares.map (fun w => k * w)) =
      ⟨df.idx, (dotDfVec df shares).vals.map (omap (fun v => k * v))⟩ := by
  unfold dotDfVec
  simp only [List.map_map]
  congr 1
  apply List.map_congr_left
  intro p _
  exact rowDot_scale k (rowAt df.cols p) shares

theorem shiftCol_map_omap {K : Type} (f : K → K) (c : List (Option K)) :
    shiftCol (c.map (omap f)) = (shiftCol c).map (omap f) := by
  unfold shiftCol
  rw [List.length_map]
  have hcons : (none : Option K) :: c.map (omap f) = ((none : Option K) :: c).map (omap f) := by
    simp only [List.map_cons]
    rfl
  rw [hcons, ← List.map_take]

theorem zip_div_scale {K : Type} [Field K] {k : K} (hk : k ≠ 0) (a b : List (Option K)) :
    List.zipWith (omap2 (fun x y => x / y))
        (a.map (omap (fun v => k * v))) (b.map (omap (fun v => k * v)))
      = List.zipWith (omap2 (fun x y => x / y)) a b := by
  rw [List.zipWith_map]
  have hfun : (fun (x y : Option K) =>
      omap2 (fun u v => u / v) (omap (fun v => k * v) x) (omap (fun v => k * v) y))
      = omap2 (fun u v => u / v) := by
    funext x y
    cases x with
    | none => rfl
    | some a2 =>
      cases y with
      | none => rfl
      | some b2 =>
        simp only [omap, omap2]
        rw [mul_div_mul_left a2 b2 hk]
  rw [hfun]

theorem v1ProfileFrom_scale {K : Type} [Field K] (sq : K → K) {k : K} (hk : k ≠ 0)
    (idx : List Nat) (vals : List (Option K)) :
    v1ProfileFrom sq (toFrame ("portfolio") ⟨idx, vals.map (omap (fun v => k * v))⟩) =
      scalePrices (fun v => k * v) (v1ProfileFrom sq (toFrame ("portfolio") ⟨idx, vals⟩)) := by
  have hz : List.zipWith (omap2 (fun a b => a / b)) (vals.map (omap (fun v => k * v)))
      (shiftCol (vals.map (omap (fun v => k * v))))
      = List.zipWith (omap2 (fun a b => a / b)) vals (shiftCol vals) := by
    rw [shiftCol_map_omap, zip_div_scale hk]
  simp only [v1ProfileFrom, scalePrices, toFrame, zipDF, shift1, applyDF, dropna,
    List.map_cons, List.map_nil, List.zipWith_cons_cons, List.zipWith_nil_right, hz]

theorem v1_scale {K : Type} [Field K] (sq : K → K) (prices : DF K) (shares : List K)
    {k : K} (hk : k ≠ 0) :
    get_portfolio_risk_profile_v1 sq prices (shares.map (fun w => k * w)) =
      Except.map (scalePrices (fun v => k * v))
        (get_portfolio_risk_profile_v1 sq prices shares) := by
  unfold get_portfolio_risk_profile_v1
  rw [List.length_map]
  by_cases h : prices.names.length ≠ shares.length
  · rw [if_pos h, if_pos h]
    rfl
  · rw [if_neg h, if_neg h]
    show _ = Except.ok _
    rw [dotDfVec_scale]
    have := v1ProfileFrom_scale sq hk (dotDfVec prices shares).idx (dotDfVec prices shares).vals
    rw [show (dotDfVec prices shares).idx = prices.idx from rfl] at this
    rw [this]
    rfl

/-- Every call of the module-level portfolio builder ends in an error: each of
the three dot products can fail with a shape error, and a call that survives
them hits the unbound identifier on line 168. -/
theorem eff_always_errors {K : Type} [Field K] (p : AssetRiskProfile K) (w : List K) :
    ∃ e, get_portfolio_risk_profile p w = .error e := by
  unfold get_portfolio_risk_profile
  cases vecDotDf w p.time_series.prices with
  | error e => exact ⟨e, rfl⟩
  | ok a =>
    cases vecDotDf w p.time_series.log_returns with
    | error e => exact ⟨e, rfl⟩
    | ok b =>
      cases vecDotSeries w p.metrics.daily_return with
      | error e => exact ⟨e, rfl⟩
      | ok c => exact ⟨.nameError ("asset_time_series"), rfl⟩

/-- C1: the claim fails on the code as a bug. The module-level
`get_portfolio_risk_profile` (the second definition, which shadows the
complete first one) never returns a `PortfolioRiskProfile` at all: every call
errors against its own declared return type, and at the concrete two-asset,
three-date profile with the matching weight vector `[1/2, 1/2]` it fails with
the dot-product shape error that contracts the two weights against the three
dates. -/
theorem C1_effective_builder_never_returns :
    (∀ (p : AssetRiskProfile ℚ) (w : List ℚ),
        ∃ e, get_portfolio_risk_profile p w = .error e) ∧
      get_portfolio_risk_profile profC [1 / 2, 1 / 2] = .error (.dotShapeMismatch 2 3) :=
  ⟨fun p w => eff_always_errors p w, rfl⟩

/-- C2: the claim fails on the code as a bug. The shadowed portfolio builder
stores the raw price ratio instead of its logarithm: with one asset whose
price moves from 1 to 2, the stored return series value is 2, the bare ratio,
where the log-return definition of the per-asset builder would store ln 2. -/
theorem C2_v1_missing_log :
    Except.map (fun r => r.time_series.log_returns)
        (get_portfolio_risk_profile_v1 sq0 dfRat [1])
      = .ok ⟨[1], ["portfolio"], [[some 2]]⟩ := by
  norm_num [get_portfolio_risk_profile_v1, v1ProfileFrom, dfRat, toFrame, dotDfVec, rowAt,
    rowDot, dropna, zipDF, shift1, shiftCol, omap2, Except.map, List.range, List.range.loop,
    List.filterMap_cons, List.filterMap_nil, List.zipWith_cons_cons, List.sum_cons,
    List.sum_nil, id]

/-- C3 counterexample: the weight vector `[1, 1]` has the nonzero sum 2, yet
the portfolio builder still fails — with a dot-product shape error, not with
any degenerate-weights error — refuting that it fails exactly on zero-sum
weights. -/
theorem C3_counterexample :
    [(1 : ℚ), 1].sum = 2 ∧ (2 : ℚ) ≠ 0 ∧
      get_portfolio_risk_profile profC [1, 1] = .error (.dotShapeMismatch 2 3) :=
  ⟨by norm_num, by norm_num, rfl⟩

/-- C3 (amended): neither portfolio builder normalizes the weights or checks
their sum. The shadowed builder succeeds on any shares vector of matching
length — including one summing to zero — and its result is built from the raw
shares; the module-level builder fails on every input for reasons unrelated
to the weights' sum, and no degenerate-weights error exists anywhere. -/
theorem C3_no_normalization :
    (∀ (sq : ℚ → ℚ) (prices : DF ℚ) (shares : List ℚ),
        prices.names.length = shares.length → shares.sum = 0 →
        isOkE (get_portfolio_risk_profile_v1 sq prices shares) = true) ∧
    (∀ (sq : ℚ → ℚ) (prices : DF ℚ) (shares : List ℚ),
        prices.names.length = shares.length →
        get_portfolio_risk_profile_v1 sq prices shares =
          .ok (v1ProfileFrom sq (toFrame ("portfolio") (dotDfVec prices shares)))) ∧
    (∀ (p : AssetRiskProfile ℚ) (w : List ℚ),
        ∃ e, get_portfolio_risk_profile p w = .error e) := by
  refine ⟨?_, ?_, fun p w => eff_always_errors p w⟩
  · intro sq prices shares hlen _
    rw [v1_ok sq prices shares hlen]
    rfl
  · intro sq prices shares hlen
    exact v1_ok sq prices shares hlen

/-- C3 witness: the zero-sum shares `[1, -1]` on a two-asset table are
accepted by the shadowed builder, which returns the profile built from the
raw shares. -/
theorem C3_witness :
    isOkE (get_portfolio_risk_profile_v1 sq0 dfP2 [1, -1]) = true ∧
      get_portfolio_risk_profile_v1 sq0 dfP2 [1, -1] =
        .ok (v1ProfileFrom sq0 (toFrame ("portfolio") (dotDfVec dfP2 [1, -1]))) :=
  ⟨C3_no_normalization.1 sq0 dfP2 [1, -1] (by decide) (by simp),
   C3_no_normalization.2.1 sq0 dfP2 [1, -1] (by decide)⟩

/-- C4 counterexample: doubling the single share changes the result — the
portfolio price at the first date is 2 with shares `[2]` and 1 with shares
`[1]` — so the two calls do not yield identical profiles. -/
theorem C4_counterexample :
    Except.map (fun r => (r.time_series.prices.cols.getD 0 []).getD 0 none)
        (get_portfolio_risk_profile_v1 sq0 dfRat [2]) = .ok (some 2) ∧
    Except.map (fun r => (r.time_series.prices.cols.getD 0 []).getD 0 none)
        (get_portfolio_risk_profile_v1 sq0 dfRat [1]) = .ok (some 1) ∧
    get_portfolio_risk_profile_v1 sq0 dfRat [2] ≠ get_portfolio_risk_profile_v1 sq0 dfRat [1] := by
  have h2 : Except.map (fun (r : AssetRiskProfile ℚ) => (r.time_series.prices.cols.getD 0 []).getD 0 none)
      (get_portfolio_risk_profile_v1 sq0 dfRat [2]) = .ok (some 2) := by
    norm_num [get_portfolio_risk_profile_v1, v1ProfileFrom, dfRat, toFrame, dotDfVec, rowAt,
      rowDot, dropna, zipDF, shift1, shiftCol, omap2, Except.map, List.range, List.range.loop,
      List.filterMap_cons, List.filterMap_nil, List.zipWith_cons_cons, List.sum_cons,
      List.sum_nil, id]
  have h1 : Except.map (fun (r : AssetRiskProfile ℚ) => (r.time_series.prices.cols.getD 0 []).getD 0 none)
      (get_portfolio_risk_profile_v1 sq0 dfRat [1]) = .ok (some 1) := by
    norm_num [get_portfolio_risk_profile_v1, v1ProfileFrom, dfRat, toFrame, dotDfVec, rowAt,
      rowDot, dropna, zipDF, shift1, shiftCol, omap2, Except.map, List.range, List.range.loop,
      List.filterMap_cons, List.filterMap_nil, List.zipWith_cons_cons, List.sum_cons,
      List.sum_nil, id]
  refine ⟨h2, h1, ?_⟩
  intro h
  have hc := congrArg (Except.map
    (fun (r : AssetRiskProfile ℚ) => (r.time_series.prices.cols.getD 0 []).getD 0 none)) h
  rw [h2, h1] at hc
  simp only [Except.ok.injEq, Option.some.injEq] at hc
  norm_num at hc

/-- C4 (amended): the shadowed portfolio builder is homogeneous rather than
scale invariant — calling it with `shares * k` for `k ≠ 0` multiplies the
stored portfolio price series by `k` and leaves the stored return series and
every metric unchanged (the price ratios cancel the common factor). -/
theorem C4_homogeneity (sq : ℚ → ℚ) (prices : DF ℚ) (shares : List ℚ) (k : ℚ)
    (hk : k ≠ 0) :
    get_portfolio_risk_profile_v1 sq prices (shares.map (fun w => k * w)) =
      Except.map (scalePrices (fun v => k * v))
        (get_portfolio_risk_profile_v1 sq prices shares) :=
  v1_scale sq prices shares hk

/-- C4 witness: instantiated at the concrete one-asset table with `k = 2`. -/
theorem C4_witness :
    get_portfolio_risk_profile_v1 sq0 dfRat ([1].map (fun w => (2 : ℚ) * w)) =
      Except.map (scalePrices (fun v => (2 : ℚ) * v))
        (get_portfolio_risk_profile_v1 sq0 dfRat [1]) :=
  C4_homogeneity sq0 dfRat [1] 2 (by decide)

/-- C10: calling the asset builder with no tables and no names passes the
count check and the (vacuous) field extraction, and then fails when `pd.concat`
refuses an empty list — an error that is neither of the two documented ones. -/
theorem C10_empty_inputs :
    get_asset_risk_profile lg0 sq0 ([] : List (DF ℚ)) ([] : List String) ("close")
        = .error .noObjectsToConcatenate ∧
      (∀ a b, Err.noObjectsToConcatenate ≠ .lenMismatch a b) ∧
      (∀ f, Err.noObjectsToConcatenate ≠ .keyError f) :=
  ⟨rfl, fun _a _b h => Err.noConfusion h, fun _f h => Err.noConfusion h⟩

/-- The concatenation step errors only on the empty list. -/
theorem concat_error_shape {K : Type} {ss : List (PSeries K)} {e : Err}
    (h : concatCols ss = .error e) : e = .noObjectsToConcatenate := by
  cases ss with
  | nil => cases h; rfl
  | cons s0 rest => cases h

/-- C5 counterexample: a table with a price column but no rows satisfies every
precondition, and the builder returns a profile whose price table and return
table both have zero rows — the return table does not have exactly one row
fewer than the price table. -/
theorem C5_counterexample :
    Except.map (fun r => (r.time_series.prices.idx.length, r.time_series.log_returns.idx.length))
        (get_asset_risk_profile lg0 sq0 [dfEmpty] ["a"] ("px")) = .ok (0, 0) ∧
      Except.map (fun r => decide (r.time_series.prices.idx.length
          = r.time_series.log_returns.idx.length + 1))
        (get_asset_risk_profile lg0 sq0 [dfEmpty] ["a"] ("px")) = .ok false :=
  ⟨rfl, rfl⟩

/-- C5 (amended): whenever the asset builder succeeds, every return-table
entry is the elementwise logarithm of the ratio of the price at a date to the
price one row earlier, the return table keeps the price columns and drops
exactly the first date — so it has exactly one row fewer whenever the price
table is nonempty, and on a strictly increasing date index the earliest price
date is absent from the return index. (With zero price rows both tables are
empty, which is the single situation the original claim missed.) -/
theorem C5_log_return_shape (lg sq : ℚ → ℚ) (dfs : List (DF ℚ)) (names : List String)
    (field : String) (hne : dfs ≠ []) (hlen : dfs.length = names.length)
    (hf : ∀ df ∈ dfs, field ∈ df.names) :
    ∃ r, get_asset_risk_profile lg sq dfs names field = .ok r ∧
      r.time_series.log_returns.names = r.time_series.prices.names ∧
      r.time_series.log_returns.idx = r.time_series.prices.idx.tail ∧
      (r.time_series.prices.idx ≠ [] →
        r.time_series.prices.idx.length = r.time_series.log_returns.idx.length + 1) ∧
      (∀ j p, (r.time_series.log_returns.cols.getD j []).getD p none =
        omap lg (omap2 (fun a b => a / b)
          ((r.time_series.prices.cols.getD j []).getD (p + 1) none)
          ((r.time_series.prices.cols.getD j []).getD p none))) ∧
      (List.Pairwise (fun a b => a < b) r.time_series.prices.idx →
        ∀ d, r.time_series.prices.idx.head? = some d →
          d ∉ r.time_series.log_returns.idx) := by
  refine ⟨assetProfileFrom lg sq (pricesTableOf dfs names field),
    builder_ok lg sq dfs names field hne hlen hf, rfl, rfl, ?_, ?_, ?_⟩
  · intro h
    show (pricesTableOf dfs names field).idx.length
      = (pricesTableOf dfs names field).idx.tail.length + 1
    cases hidx : (pricesTableOf dfs names field).idx with
    | nil => exact absurd hidx h
    | cons d t => simp
  · intro j p
    show ((assetProfileFrom lg sq (pricesTableOf dfs names field)).time_series.log_returns.cols.getD
      j []).getD p none = _
    rw [assetLogRet_cols]
    rw [getD_map_empF (fun c =>
      (List.map (omap lg) (List.zipWith (omap2 (fun a b => a / b)) c (shiftCol c))).tail)
      rfl (pricesTableOf dfs names field).cols j]
    exact assetLogRet_entry lg _ p
  · intro hsort d hd
    have hd2 : (pricesTableOf dfs names field).idx.head? = some d := hd
    have hsort2 : List.Pairwise (fun a b => a < b) (pricesTableOf dfs names field).idx := hsort
    show d ∉ (pricesTableOf dfs names field).idx.tail
    cases hidx : (pricesTableOf dfs names field).idx with
    | nil =>
      rw [hidx] at hd2
      cases hd2
    | cons a t =>
      rw [hidx] at hd2 hsort2
      simp only [List.head?] at hd2
      cases hd2
      rcases List.pairwise_cons.mp hsort2 with ⟨ha, _⟩
      simp only [List.tail_cons]
      intro hmem
      exact absurd (ha d hmem) (lt_irrefl d)

/-- C5 witness: the amended statement instantiated at one single-asset table
with two dates. -/
theorem C5_witness :
    (([dfONE] : List (DF ℚ)) ≠ []) ∧
    (∃ r, get_asset_risk_profile lg0 sq0 [dfONE] ["A"] ("px") = .ok r ∧
      r.time_series.log_returns.names = r.time_series.prices.names ∧
      r.time_series.log_returns.idx = r.time_series.prices.idx.tail ∧
      (r.time_series.prices.idx ≠ [] →
        r.time_series.prices.idx.length = r.time_series.log_returns.idx.length + 1) ∧
      (∀ j p, (r.time_series.log_returns.cols.getD j []).getD p none =
        omap lg0 (omap2 (fun a b => a / b)
          ((r.time_series.prices.cols.getD j []).getD (p + 1) none)
          ((r.time_series.prices.cols.getD j []).getD p none))) ∧
      (List.Pairwise (fun a b => a < b) r.time_series.prices.idx →
        ∀ d, r.time_series.prices.idx.head? = some d →
          d ∉ r.time_series.log_returns.idx)) :=
  ⟨by decide,
   C5_log_return_shape lg0 sq0 [dfONE] ["A"] ("px") (by decide) (by decide) (by decide)⟩

/-- C6: whenever the asset builder or the shadowed portfolio builder returns
a profile, the daily figures are exactly the per-column mean and unbiased
standard deviation of the stored return table, the annual figures are exactly
the daily ones scaled by 252 and by the square root of 252, and the column
mean and standard deviation agree with the spec-worded sample mean and
unbiased sample variance on the observed (non-missing) values. -/
theorem C6_metrics (lg sq : ℚ → ℚ) (dfs : List (DF ℚ)) (names : List String)
    (field : String) (hne : dfs ≠ []) (hlen : dfs.length = names.length)
    (hf : ∀ df ∈ dfs, field ∈ df.names)
    (sq2 : ℚ → ℚ) (prices2 : DF ℚ) (shares2 : List ℚ)
    (hlen2 : prices2.names.length = shares2.length) :
    (∃ r, get_asset_risk_profile lg sq dfs names field = .ok r ∧ metricProps sq r) ∧
    (∃ r2, get_portfolio_risk_profile_v1 sq2 prices2 shares2 = .ok r2 ∧ metricProps sq2 r2) ∧
    (∀ c : List (Option ℚ), (c.filterMap id).length ≠ 0 →
        colMean c = some (specSampleMean (c.filterMap id))) ∧
    (∀ c : List (Option ℚ), 2 ≤ (c.filterMap id).length →
        colStd sq c = some (sq (specSampleVar (c.filterMap id)))) := by
  refine ⟨⟨assetProfileFrom lg sq (pricesTableOf dfs names field),
      builder_ok lg sq dfs names field hne hlen hf, rfl, rfl, rfl, rfl⟩,
    ⟨v1ProfileFrom sq2 (toFrame ("portfolio") (dotDfVec prices2 shares2)),
      v1_ok sq2 prices2 shares2 hlen2, rfl, rfl, rfl, rfl⟩, ?_, ?_⟩
  · intro c hc
    simp only [colMean, if_neg hc]
    rfl
  · intro c hc
    have h1 : ¬ (c.filterMap id).length ≤ 1 := by omega
    simp only [colStd, if_neg h1, specSampleVar, specSampleMean]

/-- C6 witness: instantiated at one single-asset table with two dates for the
asset builder and at the one-asset doubling table with a unit share for the
shadowed portfolio builder. -/
theorem C6_witness :
    (∃ r, get_asset_risk_profile lg0 sq0 [dfONE] ["A"] ("px") = .ok r ∧ metricProps sq0 r) ∧
    (∃ r2, get_portfolio_risk_profile_v1 sq0 dfRat [1] = .ok r2 ∧ metricProps sq0 r2) ∧
    (∀ c : List (Option ℚ), (c.filterMap id).length ≠ 0 →
        colMean c = some (specSampleMean (c.filterMap id))) ∧
    (∀ c : List (Option ℚ), 2 ≤ (c.filterMap id).length →
        colStd sq0 c = some (sq0 (specSampleVar (c.filterMap id)))) :=
  C6_metrics lg0 sq0 [dfONE] ["A"] ("px") (by decide) (by decide) (by decide)
    sq0 dfRat [1] (by decide)

/-- The date index a table contributes is the date index of its extracted
series. -/
theorem seriesOf_idx {K : Type} (df : DF K) (field : String) :
    (seriesOf df field).idx = df.idx := rfl

/-- C7 counterexample: one table and one name are equal-length inputs, yet
the builder constructs no price table at all — the field is missing from the
table, so the call fails. -/
theorem C7_counterexample :
    ([dfNoPx] : List (DF ℚ)).length = (["a"] : List String).length ∧
      get_asset_risk_profile lg0 sq0 [dfNoPx] ["a"] ("px") = .error (.keyError ("px")) ∧
      isOkE (get_asset_risk_profile lg0 sq0 [dfNoPx] ["a"] ("px")) = false :=
  ⟨rfl, rfl, rfl⟩

/-- C7 (amended): for equal-length inputs where the field is present in every
table and at least one table is supplied, the builder succeeds; the price
table carries the asset names in order, one column per name, its date index
is exactly the union of the input date indices (strictly sorted — hence
duplicate-free — whenever the input indices are), column `i` is the field
series of table `i` reindexed onto that union, and a date a series does not
carry reads back as a missing value, not as zero. -/
theorem C7_alignment (lg sq : ℚ → ℚ) (dfs : List (DF ℚ)) (names : List String)
    (field : String) (hne : dfs ≠ []) (hlen : dfs.length = names.length)
    (hf : ∀ df ∈ dfs, field ∈ df.names) :
    ∃ r, get_asset_risk_profile lg sq dfs names field = .ok r ∧
      r.time_series.prices.names = names ∧
      r.time_series.prices.cols.length = names.length ∧
      (∀ d, d ∈ r.time_series.prices.idx ↔ ∃ df ∈ dfs, d ∈ df.idx) ∧
      ((∀ df ∈ dfs, List.Pairwise (fun a b => a < b) df.idx) →
        List.Pairwise (fun a b => a < b) r.time_series.prices.idx) ∧
      r.time_series.prices.cols =
        dfs.map (fun df => reindexVals r.time_series.prices.idx (seriesOf df field)) ∧
      (∀ (s : PSeries ℚ) d, d ∉ s.idx → seriesAt s d = none) := by
  cases dfs with
  | nil => exact absurd rfl hne
  | cons d0 rest =>
    refine ⟨assetProfileFrom lg sq (pricesTableOf (d0 :: rest) names field),
      builder_ok lg sq (d0 :: rest) names field hne hlen hf, rfl, ?_, ?_, ?_, ?_,
      fun s d h => seriesAt_not_mem s d h⟩
    · show ((seriesOf d0 field :: rest.map (fun df => seriesOf df field)).map
        (reindexVals (unionIdx (seriesOf d0 field) (rest.map (fun df => seriesOf df field))))).length
        = names.length
      rw [List.length_map, List.length_cons, List.length_map]
      rw [← hlen]
      rfl
    · intro d
      show d ∈ unionIdx (seriesOf d0 field) (rest.map (fun df => seriesOf df field)) ↔ _
      rw [mem_unionIdx]
      constructor
      · rintro ⟨s, hs, hd⟩
        rcases List.mem_cons.mp hs with rfl | hs2
        · exact ⟨d0, by simp, hd⟩
        · rcases List.mem_map.mp hs2 with ⟨df, hdf, rfl⟩
          exact ⟨df, List.mem_cons.mpr (Or.inr hdf), hd⟩
      · rintro ⟨df, hdf, hd⟩
        rcases List.mem_cons.mp hdf with rfl | hdf2
        · exact ⟨seriesOf df field, by simp, hd⟩
        · exact ⟨seriesOf df field,
            List.mem_cons.mpr (Or.inr (List.mem_map.mpr ⟨df, hdf2, rfl⟩)), hd⟩
    · intro hs
      show List.Pairwise (fun a b => a < b)
        (unionIdx (seriesOf d0 field) (rest.map (fun df => seriesOf df field)))
      unfold unionIdx
      split
      · exact hs d0 (List.mem_cons.mpr (Or.inl rfl))
      · exact sorted_sortDedup _
    · show (seriesOf d0 field :: rest.map (fun df => seriesOf df field)).map
        (reindexVals (unionIdx (seriesOf d0 field) (rest.map (fun df => seriesOf df field)))) = _
      rw [show (d0 :: rest).map (fun df => reindexVals
          ((assetProfileFrom lg sq (pricesTableOf (d0 :: rest) names field)).time_series.prices.idx)
          (seriesOf df field))
        = ((d0 :: rest).map (fun df => seriesOf df field)).map
          (reindexVals (unionIdx (seriesOf d0 field) (rest.map (fun df => seriesOf df field))))
        from by rw [List.map_map]; rfl]
      rfl

/-- C7 witness: the amended statement instantiated at two tables carrying the
field over the same two dates. -/
theorem C7_witness :
    (([dfONE, dfONE] : List (DF ℚ)).length = (["A", "B"] : List String).length) ∧
    (∃ r, get_asset_risk_profile lg0 sq0 [dfONE, dfONE] ["A", "B"] ("px") = .ok r ∧
      r.time_series.prices.names = ["A", "B"] ∧
      r.time_series.prices.cols.length = (["A", "B"] : List String).length ∧
      (∀ d, d ∈ r.time_series.prices.idx ↔ ∃ df ∈ [dfONE, dfONE], d ∈ df.idx) ∧
      ((∀ df ∈ ([dfONE, dfONE] : List (DF ℚ)), List.Pairwise (fun a b => a < b) df.idx) →
        List.Pairwise (fun a b => a < b) r.time_series.prices.idx) ∧
      r.time_series.prices.cols =
        ([dfONE, dfONE] : List (DF ℚ)).map
          (fun df => reindexVals r.time_series.prices.idx (seriesOf df ("px"))) ∧
      (∀ (s : PSeries ℚ) d, d ∉ s.idx → seriesAt s d = none)) :=
  ⟨rfl, C7_alignment lg0 sq0 [dfONE, dfONE] ["A", "B"] ("px")
    (by decide) (by decide) (by decide)⟩

/-- C8: the count checks of the two complete builders behave exactly as
claimed — each fails with the error naming the two counts precisely when the
parallel inputs disagree in count — but the module-level portfolio builder is
the shadowing incomplete definition, which performs no such check and fails
even at a weight vector whose length matches the number of asset columns. -/
theorem C8_shape_checks :
    (∀ (lg sq : ℚ → ℚ) (dfs : List (DF ℚ)) (names : List String) (field : String),
        dfs.length ≠ names.length →
        get_asset_risk_profile lg sq dfs names field =
          .error (.lenMismatch dfs.length names.length)) ∧
    (∀ (lg sq : ℚ → ℚ) (dfs : List (DF ℚ)) (names : List String) (field : String) (a b : Nat),
        dfs.length = names.length →
        get_asset_risk_profile lg sq dfs names field ≠ .error (.lenMismatch a b)) ∧
    (∀ (sq : ℚ → ℚ) (prices : DF ℚ) (shares : List ℚ),
        prices.names.length ≠ shares.length →
        get_portfolio_risk_profile_v1 sq prices shares =
          .error (.lenMismatch prices.names.length shares.length)) ∧
    (∀ (sq : ℚ → ℚ) (prices : DF ℚ) (shares : List ℚ),
        prices.names.length = shares.length →
        isOkE (get_portfolio_risk_profile_v1 sq prices shares) = true) ∧
    get_portfolio_risk_profile profC [3, 4] = .error (.dotShapeMismatch 2 3) := by
  refine ⟨?_, ?_, ?_, ?_, rfl⟩
  · intro lg sq dfs names field h
    unfold get_asset_risk_profile
    rw [if_pos h]
  · intro lg sq dfs names field a b hlen h
    unfold get_asset_risk_profile at h
    rw [if_neg (by simp [hlen])] at h
    cases hx : extractAll dfs field with
    | error e =>
      simp only [hx] at h
      cases h
      exact Err.noConfusion (extractAll_error_shape hx)
    | ok ss =>
      simp only [hx] at h
      cases hc : concatCols ss with
      | error e =>
        simp only [hc] at h
        cases h
        exact Err.noConfusion (concat_error_shape hc)
      | ok prices0 =>
        simp only [hc] at h
        exact Except.noConfusion h
  · intro sq prices shares h
    unfold get_portfolio_risk_profile_v1
    rw [if_pos h]
  · intro sq prices shares h
    rw [v1_ok sq prices shares h]
    rfl

/-- C8 witness: the count checks instantiated at concrete matching and
mismatching inputs, and the shadowing builder instantiated at a weight vector
of the matching length two. -/
theorem C8_witness :
    get_asset_risk_profile lg0 sq0 [dfONE] ([] : List String) ("px")
        = .error (.lenMismatch 1 0) ∧
      get_asset_risk_profile lg0 sq0 [dfONE] ["A"] ("px") ≠ .error (.lenMismatch 9 9) ∧
      get_portfolio_risk_profile_v1 sq0 dfONE ([] : List ℚ) = .error (.lenMismatch 1 0) ∧
      isOkE (get_portfolio_risk_profile_v1 sq0 dfONE [5]) = true :=
  ⟨C8_shape_checks.1 lg0 sq0 [dfONE] [] ("px") (by decide),
   C8_shape_checks.2.1 lg0 sq0 [dfONE] ["A"] ("px") 9 9 (by decide),
   C8_shape_checks.2.2.1 sq0 dfONE [] (by decide),
   C8_shape_checks.2.2.2.1 sq0 dfONE [5] (by decide)⟩

/-- C9 counterexample: the field is absent from the single table, yet with a
mismatched name count the builder reports the count mismatch, not the missing
field — so missing-field failure is not exactly characterized by field
absence alone. -/
theorem C9_counterexample :
    get_asset_risk_profile lg0 sq0 [dfNoPx] ["a", "b"] ("px") = .error (.lenMismatch 1 2) ∧
      (("px") ∈ dfNoPx.names) = False ∧
      Err.lenMismatch 1 2 ≠ .keyError ("px") :=
  ⟨rfl, by simp [dfNoPx], fun h => Err.noConfusion h⟩

/-- C9 (amended): when the table and name counts match, the builder fails
with the key error naming the requested field — and never one naming any
other field — exactly when the field is absent from at least one table; the
key error does not name the offending table's position, and a count mismatch
takes precedence over it. -/
theorem C9_missing_field (lg sq : ℚ → ℚ) (dfs : List (DF ℚ)) (names : List String)
    (field : String) (hlen : dfs.length = names.length) :
    (get_asset_risk_profile lg sq dfs names field = .error (.keyError field) ↔
      ∃ df ∈ dfs, field ∉ df.names) ∧
    (∀ g, get_asset_risk_profile lg sq dfs names field = .error (.keyError g) → g = field) := by
  constructor
  · constructor
    · intro h
      by_contra hno
      push_neg at hno
      have hall : ∀ df ∈ dfs, field ∈ df.names := hno
      unfold get_asset_risk_profile at h
      rw [if_neg (by simp [hlen]), extractAll_ok dfs field hall] at h
      cases hc : concatCols (dfs.map (fun df => seriesOf df field)) with
      | error e =>
        simp only [hc] at h
        cases h
        exact Err.noConfusion (concat_error_shape hc)
      | ok prices0 =>
        simp only [hc] at h
        exact Except.noConfusion h
    · intro h
      unfold get_asset_risk_profile
      rw [if_neg (by simp [hlen]), extractAll_error_of_missing dfs field h]
  · intro g h
    unfold get_asset_risk_profile at h
    rw [if_neg (by simp [hlen])] at h
    cases hx : extractAll dfs field with
    | error e =>
      simp only [hx] at h
      cases h
      have he := extractAll_error_shape hx
      cases he
      rfl
    | ok ss =>
      simp only [hx] at h
      cases hc : concatCols ss with
      | error e =>
        simp only [hc] at h
        cases h
        exact Err.noConfusion (concat_error_shape hc)
      | ok prices0 =>
        simp only [hc] at h
        exact Except.noConfusion h

/-- C9 witness: the amended statement instantiated at the single table that
lacks the field, with a matching single name. -/
theorem C9_witness :
    ((get_asset_risk_profile lg0 sq0 [dfNoPx] ["a"] ("px") = .error (.keyError ("px")) ↔
      ∃ df ∈ ([dfNoPx] : List (DF ℚ)), ("px") ∉ df.names) ∧
    (∀ g, get_asset_risk_profile lg0 sq0 [dfNoPx] ["a"] ("px") = .error (.keyError g) →
      g = "px")) :=
  C9_missing_field lg0 sq0 [dfNoPx] ["a"] ("px") (by decide)

end Alchemy
